import Mathlib

/-!
A shallow embedding of the mdpu virtual processor (`src/mdpu.rs`): the
processor state, its bounds-checked primitive operations, and the
fetch-decode-execute loop, together with theorems about its arithmetic,
control-flow and fault behaviour.

Modelling conventions:
* Rust `i32` values are integers normalised by `wrap32` (two's-complement
  wrap-around, the fixed-width semantics the design notes prescribe).
* `eprintln!` followed by `std::process::exit(1)` is modelled by the
  `ProcessTermination` outcome: it records the exit code together with the
  structured content of the printed diagnostic (fault kind plus offending
  operand/value).  An `Except.error` result carries, besides the
  termination record, the processor state exactly as it was at the moment
  the process terminated, so that absence of partial mutation is provable.
* The `while` loop of `execute_program` need not terminate, so it is
  modelled with explicit fuel; a `none` result means the loop was still
  running after `fuel` iterations.
-/

namespace Mdpu

/-- Two's-complement wrap-around into the `i32` value range. -/
def wrap32 (x : Int) : Int := (x + 2147483648) % 4294967296 - 2147483648

/-- The bit pattern of an `i32` value read as an unsigned 32-bit number. -/
def toN32 (x : Int) : Nat := (x % 4294967296).toNat

/-- Bitwise and of two `i32` values. -/
def and32 (x y : Int) : Int := wrap32 (Int.ofNat (Nat.land (toN32 x) (toN32 y)))

/-- Bitwise or of two `i32` values. -/
def or32 (x y : Int) : Int := wrap32 (Int.ofNat (Nat.lor (toN32 x) (toN32 y)))

/-- Bitwise exclusive or of two `i32` values. -/
def xor32 (x y : Int) : Int := wrap32 (Int.ofNat (Nat.xor (toN32 x) (toN32 y)))

/-- Bitwise complement of an `i32` value. -/
def not32 (x : Int) : Int := wrap32 (-x - 1)

/-- `i32` shift left; the shift amount is reduced mod 32 (the
release-profile behaviour of an out-of-range shift amount). -/
def shl32 (x y : Int) : Int := wrap32 (x * 2 ^ (toN32 y % 32))

/-- `i32` arithmetic shift right, again with the amount reduced mod 32. -/
def shr32 (x y : Int) : Int := Int.fdiv x (2 ^ (toN32 y % 32))

/-- The fault taxonomy: the structured content of each diagnostic the
engine prints before terminating the process. -/
inductive Fault
  | registerOutOfBounds (index : Nat)
  | memoryOutOfBounds (address : Nat)
  | divisionByZero (register : Nat) (value : Int)
  | stackOverflow (register : Nat)
  | stackUnderflow (register : Nat)
  | instructionBudgetExceeded
deriving DecidableEq, Repr

/-- The model of `std::process::exit`: the host process stops with this
exit code, after the diagnostic describing `fault` was printed. -/
structure ProcessTermination where
  code : Nat
  fault : Fault
deriving DecidableEq, Repr

/-- The structure of the multi-dimensional processing unit. -/
structure ProcessingUnit where
  registers : List Int
  memory : List Int
  stack_pointer : Nat
deriving DecidableEq, Repr

/-- The state snapshot returned to the caller after execution. -/
structure ProcessingUnitState where
  registers : List Int
  stack : List Int
deriving DecidableEq, Repr

/-- Outcome of a primitive processor-state operation: either the updated
state, or process termination together with the state left behind at the
moment of termination. -/
abbrev OpResult := Except (ProcessingUnit × ProcessTermination) ProcessingUnit

namespace ProcessingUnit

/-- `ProcessingUnit::initialize`: all-zero registers and memory, stack
pointer at the top of memory.  (`memory_size - 1` is `Nat` subtraction
here; `initWrap` below models the wrapping `usize` subtraction of the
source under the same release-profile convention as `wrap32`; the two
agree on every `memory_size ≥ 1` in `usize` range and differ only at
`memory_size = 0`.) -/
def init (num_registers memory_size : Nat) : ProcessingUnit where
  registers := List.replicate num_registers 0
  memory := List.replicate memory_size 0
  stack_pointer := memory_size - 1

/-- `ProcessingUnit::initialize` with the stack-pointer initialisation
`memory_size - 1` taken as wrapping 64-bit `usize` subtraction — the
same release-profile wrap-around convention `wrap32` fixes for `i32`:
at `memory_size = 0` the subtraction wraps to `2^64 - 1` and a
(degenerate) state is still returned. -/
def initWrap (num_registers memory_size : Nat) : ProcessingUnit where
  registers := List.replicate num_registers 0
  memory := List.replicate memory_size 0
  stack_pointer := (memory_size + 18446744073709551616 - 1) % 18446744073709551616

/-- `check_register_bounds`: out-of-range register index prints a
diagnostic and exits the process with code 1. -/
def check_register_bounds (pu : ProcessingUnit) (reg : Nat) :
    Except (ProcessingUnit × ProcessTermination) Unit :=
  if reg ≥ pu.registers.length then
    Except.error (pu, ⟨1, Fault.registerOutOfBounds reg⟩)
  else
    Except.ok ()

/-- Arithmetic operation `add`. -/
def add (pu : ProcessingUnit) (reg1 reg2 reg3 : Nat) : OpResult := do
  let _ ← pu.check_register_bounds reg1
  let _ ← pu.check_register_bounds reg2
  let _ ← pu.check_register_bounds reg3
  Except.ok { pu with registers := (pu.registers.set reg3
    (wrap32 (pu.registers.getD reg1 0 + pu.registers.getD reg2 0))) }

/-- Arithmetic operation `subtract`. -/
def subtract (pu : ProcessingUnit) (reg1 reg2 reg3 : Nat) : OpResult := do
  let _ ← pu.check_register_bounds reg1
  let _ ← pu.check_register_bounds reg2
  let _ ← pu.check_register_bounds reg3
  Except.ok { pu with registers := (pu.registers.set reg3
    (wrap32 (pu.registers.getD reg1 0 - pu.registers.getD reg2 0))) }

/-- Arithmetic operation `multiply`. -/
def multiply (pu : ProcessingUnit) (reg1 reg2 reg3 : Nat) : OpResult := do
  let _ ← pu.check_register_bounds reg1
  let _ ← pu.check_register_bounds reg2
  let _ ← pu.check_register_bounds reg3
  Except.ok { pu with registers := (pu.registers.set reg3
    (wrap32 (pu.registers.getD reg1 0 * pu.registers.getD reg2 0))) }

/-- Arithmetic operation `divide` (truncating division, matching the
host's `/` on `i32`); zero divisor prints the division-by-zero
diagnostic and exits.  The one corner where `wrap32` is coarser than
the host — `i32::MIN / -1`, which Rust aborts on in every profile — is
modelled as wrapping; no theorem below reaches it. -/
def divide (pu : ProcessingUnit) (reg1 reg2 reg3 : Nat) : OpResult := do
  let _ ← pu.check_register_bounds reg1
  let _ ← pu.check_register_bounds reg2
  let _ ← pu.check_register_bounds reg3
  if pu.registers.getD reg2 0 ≠ 0 then
    Except.ok { pu with registers := (pu.registers.set reg3
      (wrap32 ((pu.registers.getD reg1 0).tdiv (pu.registers.getD reg2 0)))) }
  else
    Except.error (pu, ⟨1, Fault.divisionByZero reg2 (pu.registers.getD reg2 0)⟩)

/-- Arithmetic operation `neg`. -/
def neg (pu : ProcessingUnit) (reg1 reg2 : Nat) : OpResult := do
  let _ ← pu.check_register_bounds reg1
  let _ ← pu.check_register_bounds reg2
  Except.ok { pu with registers := (pu.registers.set reg2
    (wrap32 (-(pu.registers.getD reg1 0)))) }

/-- Arithmetic operation `absolute` (`i32::abs`, which wraps on the
minimum representable value). -/
def absolute (pu : ProcessingUnit) (reg1 reg2 : Nat) : OpResult := do
  let _ ← pu.check_register_bounds reg1
  let _ ← pu.check_register_bounds reg2
  Except.ok { pu with registers := (pu.registers.set reg2
    (wrap32 |pu.registers.getD reg1 0|)) }

/-- Arithmetic operation `mod_op` (truncating remainder, matching the
host's `%` on `i32`); zero divisor exits like `divide`.  As with
`divide`, the host's abort on `i32::MIN % -1` is modelled as wrapping
(here the remainder is 0 either way up to the abort); no theorem below
reaches it. -/
def mod_op (pu : ProcessingUnit) (reg1 reg2 reg3 : Nat) : OpResult := do
  let _ ← pu.check_register_bounds reg1
  let _ ← pu.check_register_bounds reg2
  let _ ← pu.check_register_bounds reg3
  if pu.registers.getD reg2 0 ≠ 0 then
    Except.ok { pu with registers := (pu.registers.set reg3
      (wrap32 ((pu.registers.getD reg1 0).tmod (pu.registers.getD reg2 0)))) }
  else
    Except.error (pu, ⟨1, Fault.divisionByZero reg2 (pu.registers.getD reg2 0)⟩)

/-- Memory operation `store`. -/
def store (pu : ProcessingUnit) (reg addr : Nat) : OpResult := do
  let _ ← pu.check_register_bounds reg
  if addr < pu.memory.length then
    Except.ok { pu with memory := pu.memory.set addr (pu.registers.getD reg 0) }
  else
    Except.error (pu, ⟨1, Fault.memoryOutOfBounds addr⟩)

/-- Memory operation `load`. -/
def load (pu : ProcessingUnit) (addr reg : Nat) : OpResult := do
  let _ ← pu.check_register_bounds reg
  if addr < pu.memory.length then
    Except.ok { pu with registers := pu.registers.set reg (pu.memory.getD addr 0) }
  else
    Except.error (pu, ⟨1, Fault.memoryOutOfBounds addr⟩)

/-- Stack operation `push`: write at `stack_pointer`, then decrement it;
fault when the stack pointer is already 0. -/
def push (pu : ProcessingUnit) (reg : Nat) : OpResult := do
  let _ ← pu.check_register_bounds reg
  if pu.stack_pointer > 0 then
    Except.ok { pu with
      memory := pu.memory.set pu.stack_pointer (pu.registers.getD reg 0)
      stack_pointer := pu.stack_pointer - 1 }
  else
    Except.error (pu, ⟨1, Fault.stackOverflow reg⟩)

/-- Stack operation `pop`: increment the stack pointer, then read from
it; fault when the stack pointer is already at `memory.length - 1`. -/
def pop (pu : ProcessingUnit) (reg : Nat) : OpResult := do
  let _ ← pu.check_register_bounds reg
  if pu.stack_pointer < pu.memory.length - 1 then
    Except.ok { pu with
      stack_pointer := pu.stack_pointer + 1
      registers := pu.registers.set reg (pu.memory.getD (pu.stack_pointer + 1) 0) }
  else
    Except.error (pu, ⟨1, Fault.stackUnderflow reg⟩)

/-- Register move `mov` (destination first: `registers[reg1] = registers[reg2]`). -/
def mov (pu : ProcessingUnit) (reg1 reg2 : Nat) : OpResult := do
  let _ ← pu.check_register_bounds reg1
  let _ ← pu.check_register_bounds reg2
  Except.ok { pu with registers := pu.registers.set reg1 (pu.registers.getD reg2 0) }

end ProcessingUnit

/-- The opcode tags, one per instruction kind. -/
inductive Opcode
  | Nop | Add | Sub | Mul | Div | Store | Load | LoadImmediate
  | Push | Pop | Jmp | Jz | Jnz | Mov | Je | Jne
  | And | Or | Xor | Not | Shl | Shr | Cmp | Test
  | B | Bz | Bnz | Neg | Abs | Mod | Inc | Dec | Halt
deriving DecidableEq, Repr

/-- The structure of an instruction. -/
structure Instruction where
  opcode : Opcode
  reg1 : Nat
  reg2 : Nat
  reg3 : Nat
  addr : Nat
  immediate : Int
deriving DecidableEq, Repr

/-- Placeholder instruction handed to the out-of-range fetch; the loop
guard guarantees it is never selected. -/
def defaultInstr : Instruction := ⟨Opcode.Nop, 0, 0, 0, 0, 0⟩

/-- What one iteration of the `while` body of `execute_program` does:
fall through to the count/pointer increments carrying the (possibly
reassigned) instruction pointer (`next`), reassign the pointer and
`continue` (`cont`), `break` out of the loop (`brk`), or terminate the
process (`term`). -/
inductive BodyResult
  | next (pu : ProcessingUnit) (ip : Nat)
  | cont (pu : ProcessingUnit) (ip : Nat)
  | brk (pu : ProcessingUnit)
  | term (pu : ProcessingUnit) (t : ProcessTermination)
deriving DecidableEq, Repr

/-- Lift a primitive operation's outcome into the loop body: `ok` falls
through, `error` terminates the process. -/
def liftOp (r : OpResult) (ip : Nat) : BodyResult :=
  match r with
  | Except.ok pu' => BodyResult.next pu' ip
  | Except.error (pu', t) => BodyResult.term pu' t

/-- The opcode dispatch of `execute_program`, one iteration of the loop
body at instruction pointer `ip`.  `Jmp`/`B` and the taken `Jz`/`Jnz`/
`Bz`/`Bnz` branches `continue`; the taken `Je`/`Jne` branches reassign
the pointer but fall through, exactly as in the source. -/
def executeBody (pu : ProcessingUnit) (instr : Instruction) (ip : Nat) : BodyResult :=
  match instr.opcode with
  | Opcode.Add => liftOp (pu.add instr.reg1 instr.reg2 instr.reg3) ip
  | Opcode.Sub => liftOp (pu.subtract instr.reg1 instr.reg2 instr.reg3) ip
  | Opcode.Mul => liftOp (pu.multiply instr.reg1 instr.reg2 instr.reg3) ip
  | Opcode.Div => liftOp (pu.divide instr.reg1 instr.reg2 instr.reg3) ip
  | Opcode.Store => liftOp (pu.store instr.reg1 instr.addr) ip
  | Opcode.Load => liftOp (pu.load instr.addr instr.reg1) ip
  | Opcode.LoadImmediate =>
    match pu.check_register_bounds instr.reg1 with
    | Except.error e => BodyResult.term e.1 e.2
    | Except.ok _ => BodyResult.next
        { pu with registers := (pu.registers.set instr.reg1 (wrap32 instr.immediate)) } ip
  | Opcode.Push => liftOp (pu.push instr.reg1) ip
  | Opcode.Pop => liftOp (pu.pop instr.reg1) ip
  | Opcode.Jmp => BodyResult.cont pu instr.addr
  | Opcode.Jz =>
    match pu.check_register_bounds instr.reg1 with
    | Except.error e => BodyResult.term e.1 e.2
    | Except.ok _ =>
      if pu.registers.getD instr.reg1 0 = 0 then BodyResult.cont pu instr.addr
      else BodyResult.next pu ip
  | Opcode.Jnz =>
    match pu.check_register_bounds instr.reg1 with
    | Except.error e => BodyResult.term e.1 e.2
    | Except.ok _ =>
      if pu.registers.getD instr.reg1 0 ≠ 0 then BodyResult.cont pu instr.addr
      else BodyResult.next pu ip
  | Opcode.Mov => liftOp (pu.mov instr.reg1 instr.reg2) ip
  | Opcode.Je =>
    match pu.check_register_bounds instr.reg1 with
    | Except.error e => BodyResult.term e.1 e.2
    | Except.ok _ =>
      match pu.check_register_bounds instr.reg2 with
      | Except.error e => BodyResult.term e.1 e.2
      | Except.ok _ =>
        if pu.registers.getD instr.reg1 0 = pu.registers.getD instr.reg2 0 then
          BodyResult.next pu instr.addr
        else BodyResult.next pu ip
  | Opcode.Jne =>
    match pu.check_register_bounds instr.reg1 with
    | Except.error e => BodyResult.term e.1 e.2
    | Except.ok _ =>
      match pu.check_register_bounds instr.reg2 with
      | Except.error e => BodyResult.term e.1 e.2
      | Except.ok _ =>
        if pu.registers.getD instr.reg1 0 ≠ pu.registers.getD instr.reg2 0 then
          BodyResult.next pu instr.addr
        else BodyResult.next pu ip
  | Opcode.And => liftOp (do
      let _ ← pu.check_register_bounds instr.reg1
      let _ ← pu.check_register_bounds instr.reg2
      let _ ← pu.check_register_bounds instr.reg3
      Except.ok { pu with registers := (pu.registers.set instr.reg3
        (and32 (pu.registers.getD instr.reg1 0) (pu.registers.getD instr.reg2 0))) }) ip
  | Opcode.Or => liftOp (do
      let _ ← pu.check_register_bounds instr.reg1
      let _ ← pu.check_register_bounds instr.reg2
      let _ ← pu.check_register_bounds instr.reg3
      Except.ok { pu with registers := (pu.registers.set instr.reg3
        (or32 (pu.registers.getD instr.reg1 0) (pu.registers.getD instr.reg2 0))) }) ip
  | Opcode.Xor => liftOp (do
      let _ ← pu.check_register_bounds instr.reg1
      let _ ← pu.check_register_bounds instr.reg2
      let _ ← pu.check_register_bounds instr.reg3
      Except.ok { pu with registers := (pu.registers.set instr.reg3
        (xor32 (pu.registers.getD instr.reg1 0) (pu.registers.getD instr.reg2 0))) }) ip
  | Opcode.Not => liftOp (do
      let _ ← pu.check_register_bounds instr.reg1
      let _ ← pu.check_register_bounds instr.reg2
      Except.ok { pu with registers := (pu.registers.set instr.reg2
        (not32 (pu.registers.getD instr.reg1 0))) }) ip
  | Opcode.Shl => liftOp (do
      let _ ← pu.check_register_bounds instr.reg1
      let _ ← pu.check_register_bounds instr.reg2
      let _ ← pu.check_register_bounds instr.reg3
      Except.ok { pu with registers := (pu.registers.set instr.reg3
        (shl32 (pu.registers.getD instr.reg1 0) (pu.registers.getD instr.reg2 0))) }) ip
  | Opcode.Shr => liftOp (do
      let _ ← pu.check_register_bounds instr.reg1
      let _ ← pu.check_register_bounds instr.reg2
      let _ ← pu.check_register_bounds instr.reg3
      Except.ok { pu with registers := (pu.registers.set instr.reg3
        (shr32 (pu.registers.getD instr.reg1 0) (pu.registers.getD instr.reg2 0))) }) ip
  | Opcode.Cmp => liftOp (do
      let _ ← pu.check_register_bounds instr.reg1
      let _ ← pu.check_register_bounds instr.reg2
      let _ ← pu.check_register_bounds instr.reg3
      Except.ok { pu with registers := (pu.registers.set instr.reg3
        (wrap32 (pu.registers.getD instr.reg1 0 - pu.registers.getD instr.reg2 0))) }) ip
  | Opcode.Test => liftOp (do
      let _ ← pu.check_register_bounds instr.reg1
      let _ ← pu.check_register_bounds instr.reg2
      let _ ← pu.check_register_bounds instr.reg3
      Except.ok { pu with registers := (pu.registers.set instr.reg3
        (and32 (pu.registers.getD instr.reg1 0) (pu.registers.getD instr.reg2 0))) }) ip
  | Opcode.B => BodyResult.cont pu instr.addr
  | Opcode.Bz =>
    match pu.check_register_bounds instr.reg1 with
    | Except.error e => BodyResult.term e.1 e.2
    | Except.ok _ =>
      if pu.registers.getD instr.reg1 0 = 0 then BodyResult.cont pu instr.addr
      else BodyResult.next pu ip
  | Opcode.Bnz =>
    match pu.check_register_bounds instr.reg1 with
    | Except.error e => BodyResult.term e.1 e.2
    | Except.ok _ =>
      if pu.registers.getD instr.reg1 0 ≠ 0 then BodyResult.cont pu instr.addr
      else BodyResult.next pu ip
  | Opcode.Neg => liftOp (pu.neg instr.reg1 instr.reg2) ip
  | Opcode.Abs => liftOp (pu.absolute instr.reg1 instr.reg2) ip
  | Opcode.Mod => liftOp (pu.mod_op instr.reg1 instr.reg2 instr.reg3) ip
  | Opcode.Inc =>
    match pu.check_register_bounds instr.reg1 with
    | Except.error e => BodyResult.term e.1 e.2
    | Except.ok _ => BodyResult.next
        { pu with registers := (pu.registers.set instr.reg1
          (wrap32 (pu.registers.getD instr.reg1 0 + 1))) } ip
  | Opcode.Dec =>
    match pu.check_register_bounds instr.reg1 with
    | Except.error e => BodyResult.term e.1 e.2
    | Except.ok _ => BodyResult.next
        { pu with registers := (pu.registers.set instr.reg1
          (wrap32 (pu.registers.getD instr.reg1 0 - 1))) } ip
  | Opcode.Nop => BodyResult.next pu ip
  | Opcode.Halt => BodyResult.brk pu

/-- The `while` loop of `execute_program`, with fuel.  A `next` body
result falls through to `instruction_count += 1; instruction_pointer += 1`;
a `cont` result re-enters the loop with the counter untouched. -/
def executeLoop (fuel : Nat) (pu : ProcessingUnit) (program : List Instruction)
    (mic ic ip : Nat) : Option (Except (ProcessingUnit × ProcessTermination) ProcessingUnit) :=
  match fuel with
  | 0 => none
  | fuel + 1 =>
    if ip < program.length then
      if ic ≥ mic then
        some (Except.error (pu, ⟨1, Fault.instructionBudgetExceeded⟩))
      else
        match executeBody pu (program.getD ip defaultInstr) ip with
        | BodyResult.next pu' ip' => executeLoop fuel pu' program mic (ic + 1) (ip' + 1)
        | BodyResult.cont pu' ip' => executeLoop fuel pu' program mic ic ip'
        | BodyResult.brk pu' => some (Except.ok pu')
        | BodyResult.term pu' t => some (Except.error (pu', t))
    else some (Except.ok pu)

/-- `execute_program`: the loop started with both counters at 0. -/
def execute_program (fuel : Nat) (pu : ProcessingUnit) (program : List Instruction)
    (mic : Nat) : Option (Except (ProcessingUnit × ProcessTermination) ProcessingUnit) :=
  executeLoop fuel pu program mic 0 0

/-- `run`: execute the program, then snapshot the registers and the
stack contents `memory[stack_pointer + 1 ..]`. -/
def run (fuel : Nat) (pu : ProcessingUnit) (program : List Instruction) (mic : Nat) :
    Option (Except (ProcessingUnit × ProcessTermination) ProcessingUnitState) :=
  match execute_program fuel pu program mic with
  | none => none
  | some (Except.error e) => some (Except.error e)
  | some (Except.ok pu') =>
    some (Except.ok { registers := pu'.registers
                      stack := pu'.memory.drop (pu'.stack_pointer + 1) })


/-- An error outcome that terminated the process with exit code 1 and
left the state `pu` untouched. -/
def CleanErr (pu : ProcessingUnit) (e : ProcessingUnit × ProcessTermination) : Prop :=
  e.1 = pu ∧ e.2.code = 1

namespace ProcessingUnit

theorem check_register_bounds_ok {pu : ProcessingUnit} {reg : Nat}
    (h : reg < pu.registers.length) : pu.check_register_bounds reg = Except.ok () := by
  simp [check_register_bounds, Nat.not_le.mpr h]

theorem check_register_bounds_error_inv {pu : ProcessingUnit} {reg : Nat}
    {e : ProcessingUnit × ProcessTermination}
    (h : pu.check_register_bounds reg = Except.error e) :
    e = (pu, ⟨1, Fault.registerOutOfBounds reg⟩) := by
  unfold check_register_bounds at h
  split at h
  · cases h; rfl
  · exact absurd h (by simp)

theorem seq_check_err {pu : ProcessingUnit} {α : Type} {r : Nat}
    {k : Unit → Except (ProcessingUnit × ProcessTermination) α}
    {e : ProcessingUnit × ProcessTermination}
    (h : (pu.check_register_bounds r >>= k) = Except.error e)
    (hk : ∀ e', k () = Except.error e' → CleanErr pu e') : CleanErr pu e := by
  cases hc : pu.check_register_bounds r with
  | error e1 =>
    rw [hc] at h
    cases h
    have := check_register_bounds_error_inv hc
    subst this
    exact ⟨rfl, rfl⟩
  | ok u =>
    cases u
    rw [hc] at h
    exact hk e h

theorem seq_check_ok {pu : ProcessingUnit} {α : Type} {r : Nat}
    {k : Unit → Except (ProcessingUnit × ProcessTermination) α} {a : α}
    (h : (pu.check_register_bounds r >>= k) = Except.ok a) :
    r < pu.registers.length ∧ k () = Except.ok a := by
  cases hc : pu.check_register_bounds r with
  | error e1 => rw [hc] at h; exact absurd h (by simp [Bind.bind, Except.bind])
  | ok u =>
    cases u
    rw [hc] at h
    refine ⟨?_, h⟩
    by_contra hlt
    rw [check_register_bounds, if_pos (Nat.le_of_not_lt hlt)] at hc
    exact absurd hc (by simp)

theorem add_term {pu : ProcessingUnit} {r1 r2 r3 : Nat}
    {e : ProcessingUnit × ProcessTermination}
    (h : pu.add r1 r2 r3 = Except.error e) : CleanErr pu e := by
  unfold add at h
  refine seq_check_err h fun e1 h1 => seq_check_err h1 fun e2 h2 =>
    seq_check_err h2 fun e3 h3 => absurd h3 (by simp)

theorem add_ok {pu pu' : ProcessingUnit} {r1 r2 r3 : Nat}
    (h : pu.add r1 r2 r3 = Except.ok pu') :
    r1 < pu.registers.length ∧ r2 < pu.registers.length ∧ r3 < pu.registers.length ∧
      pu' = { pu with registers := (pu.registers.set r3
        (wrap32 (pu.registers.getD r1 0 + pu.registers.getD r2 0))) } := by
  unfold add at h
  obtain ⟨h1, h⟩ := seq_check_ok h
  obtain ⟨h2, h⟩ := seq_check_ok h
  obtain ⟨h3, h⟩ := seq_check_ok h
  cases h
  exact ⟨h1, h2, h3, rfl⟩

theorem subtract_term {pu : ProcessingUnit} {r1 r2 r3 : Nat}
    {e : ProcessingUnit × ProcessTermination}
    (h : pu.subtract r1 r2 r3 = Except.error e) : CleanErr pu e := by
  unfold subtract at h
  refine seq_check_err h fun e1 h1 => seq_check_err h1 fun e2 h2 =>
    seq_check_err h2 fun e3 h3 => absurd h3 (by simp)

theorem subtract_ok {pu pu' : ProcessingUnit} {r1 r2 r3 : Nat}
    (h : pu.subtract r1 r2 r3 = Except.ok pu') :
    r1 < pu.registers.length ∧ r2 < pu.registers.length ∧ r3 < pu.registers.length ∧
      pu' = { pu with registers := (pu.registers.set r3
        (wrap32 (pu.registers.getD r1 0 - pu.registers.getD r2 0))) } := by
  unfold subtract at h
  obtain ⟨h1, h⟩ := seq_check_ok h
  obtain ⟨h2, h⟩ := seq_check_ok h
  obtain ⟨h3, h⟩ := seq_check_ok h
  cases h
  exact ⟨h1, h2, h3, rfl⟩

theorem multiply_term {pu : ProcessingUnit} {r1 r2 r3 : Nat}
    {e : ProcessingUnit × ProcessTermination}
    (h : pu.multiply r1 r2 r3 = Except.error e) : CleanErr pu e := by
  unfold multiply at h
  refine seq_check_err h fun e1 h1 => seq_check_err h1 fun e2 h2 =>
    seq_check_err h2 fun e3 h3 => absurd h3 (by simp)

theorem multiply_ok {pu pu' : ProcessingUnit} {r1 r2 r3 : Nat}
    (h : pu.multiply r1 r2 r3 = Except.ok pu') :
    r1 < pu.registers.length ∧ r2 < pu.registers.length ∧ r3 < pu.registers.length ∧
      pu' = { pu with registers := (pu.registers.set r3
        (wrap32 (pu.registers.getD r1 0 * pu.registers.getD r2 0))) } := by
  unfold multiply at h
  obtain ⟨h1, h⟩ := seq_check_ok h
  obtain ⟨h2, h⟩ := seq_check_ok h
  obtain ⟨h3, h⟩ := seq_check_ok h
  cases h
  exact ⟨h1, h2, h3, rfl⟩

theorem divide_term {pu : ProcessingUnit} {r1 r2 r3 : Nat}
    {e : ProcessingUnit × ProcessTermination}
    (h : pu.divide r1 r2 r3 = Except.error e) : CleanErr pu e := by
  unfold divide at h
  refine seq_check_err h fun e1 h1 => seq_check_err h1 fun e2 h2 =>
    seq_check_err h2 fun e3 h3 => ?_
  split at h3
  · exact absurd h3 (by simp)
  · cases h3; exact ⟨rfl, rfl⟩

theorem divide_ok {pu pu' : ProcessingUnit} {r1 r2 r3 : Nat}
    (h : pu.divide r1 r2 r3 = Except.ok pu') :
    r1 < pu.registers.length ∧ r2 < pu.registers.length ∧ r3 < pu.registers.length ∧
      pu' = { pu with registers := (pu.registers.set r3
        (wrap32 ((pu.registers.getD r1 0).tdiv (pu.registers.getD r2 0)))) } := by
  unfold divide at h
  obtain ⟨h1, h⟩ := seq_check_ok h
  obtain ⟨h2, h⟩ := seq_check_ok h
  obtain ⟨h3, h⟩ := seq_check_ok h
  split at h
  · cases h; exact ⟨h1, h2, h3, rfl⟩
  · exact absurd h (by simp)

theorem neg_term {pu : ProcessingUnit} {r1 r2 : Nat}
    {e : ProcessingUnit × ProcessTermination}
    (h : pu.neg r1 r2 = Except.error e) : CleanErr pu e := by
  unfold neg at h
  refine seq_check_err h fun e1 h1 => seq_check_err h1 fun e2 h2 => absurd h2 (by simp)

theorem neg_ok {pu pu' : ProcessingUnit} {r1 r2 : Nat}
    (h : pu.neg r1 r2 = Except.ok pu') :
    r1 < pu.registers.length ∧ r2 < pu.registers.length ∧
      pu' = { pu with registers := (pu.registers.set r2
        (wrap32 (-(pu.registers.getD r1 0)))) } := by
  unfold neg at h
  obtain ⟨h1, h⟩ := seq_check_ok h
  obtain ⟨h2, h⟩ := seq_check_ok h
  cases h
  exact ⟨h1, h2, rfl⟩

theorem absolute_term {pu : ProcessingUnit} {r1 r2 : Nat}
    {e : ProcessingUnit × ProcessTermination}
    (h : pu.absolute r1 r2 = Except.error e) : CleanErr pu e := by
  unfold absolute at h
  refine seq_check_err h fun e1 h1 => seq_check_err h1 fun e2 h2 => absurd h2 (by simp)

theorem absolute_ok {pu pu' : ProcessingUnit} {r1 r2 : Nat}
    (h : pu.absolute r1 r2 = Except.ok pu') :
    r1 < pu.registers.length ∧ r2 < pu.registers.length ∧
      pu' = { pu with registers := (pu.registers.set r2
        (wrap32 |pu.registers.getD r1 0|)) } := by
  unfold absolute at h
  obtain ⟨h1, h⟩ := seq_check_ok h
  obtain ⟨h2, h⟩ := seq_check_ok h
  cases h
  exact ⟨h1, h2, rfl⟩

theorem mod_op_term {pu : ProcessingUnit} {r1 r2 r3 : Nat}
    {e : ProcessingUnit × ProcessTermination}
    (h : pu.mod_op r1 r2 r3 = Except.error e) : CleanErr pu e := by
  unfold mod_op at h
  refine seq_check_err h fun e1 h1 => seq_check_err h1 fun e2 h2 =>
    seq_check_err h2 fun e3 h3 => ?_
  split at h3
  · exact absurd h3 (by simp)
  · cases h3; exact ⟨rfl, rfl⟩

theorem mod_op_ok {pu pu' : ProcessingUnit} {r1 r2 r3 : Nat}
    (h : pu.mod_op r1 r2 r3 = Except.ok pu') :
    r1 < pu.registers.length ∧ r2 < pu.registers.length ∧ r3 < pu.registers.length ∧
      pu' = { pu with registers := (pu.registers.set r3
        (wrap32 ((pu.registers.getD r1 0).tmod (pu.registers.getD r2 0)))) } := by
  unfold mod_op at h
  obtain ⟨h1, h⟩ := seq_check_ok h
  obtain ⟨h2, h⟩ := seq_check_ok h
  obtain ⟨h3, h⟩ := seq_check_ok h
  split at h
  · cases h; exact ⟨h1, h2, h3, rfl⟩
  · exact absurd h (by simp)

theorem store_term {pu : ProcessingUnit} {r a : Nat}
    {e : ProcessingUnit × ProcessTermination}
    (h : pu.store r a = Except.error e) : CleanErr pu e := by
  unfold store at h
  refine seq_check_err h fun e1 h1 => ?_
  split at h1
  · exact absurd h1 (by simp)
  · cases h1; exact ⟨rfl, rfl⟩

theorem store_ok {pu pu' : ProcessingUnit} {r a : Nat}
    (h : pu.store r a = Except.ok pu') :
    r < pu.registers.length ∧ a < pu.memory.length ∧
      pu' = { pu with memory := pu.memory.set a (pu.registers.getD r 0) } := by
  unfold store at h
  obtain ⟨h1, h⟩ := seq_check_ok h
  split at h
  · next ha => cases h; exact ⟨h1, ha, rfl⟩
  · exact absurd h (by simp)

theorem load_term {pu : ProcessingUnit} {a r : Nat}
    {e : ProcessingUnit × ProcessTermination}
    (h : pu.load a r = Except.error e) : CleanErr pu e := by
  unfold load at h
  refine seq_check_err h fun e1 h1 => ?_
  split at h1
  · exact absurd h1 (by simp)
  · cases h1; exact ⟨rfl, rfl⟩

theorem load_ok {pu pu' : ProcessingUnit} {a r : Nat}
    (h : pu.load a r = Except.ok pu') :
    r < pu.registers.length ∧ a < pu.memory.length ∧
      pu' = { pu with registers := pu.registers.set r (pu.memory.getD a 0) } := by
  unfold load at h
  obtain ⟨h1, h⟩ := seq_check_ok h
  split at h
  · next ha => cases h; exact ⟨h1, ha, rfl⟩
  · exact absurd h (by simp)

theorem push_term {pu : ProcessingUnit} {r : Nat}
    {e : ProcessingUnit × ProcessTermination}
    (h : pu.push r = Except.error e) : CleanErr pu e := by
  unfold push at h
  refine seq_check_err h fun e1 h1 => ?_
  split at h1
  · exact absurd h1 (by simp)
  · cases h1; exact ⟨rfl, rfl⟩

theorem push_ok {pu pu' : ProcessingUnit} {r : Nat}
    (h : pu.push r = Except.ok pu') :
    r < pu.registers.length ∧ 0 < pu.stack_pointer ∧
      pu' = { pu with
        memory := pu.memory.set pu.stack_pointer (pu.registers.getD r 0)
        stack_pointer := pu.stack_pointer - 1 } := by
  unfold push at h
  obtain ⟨h1, h⟩ := seq_check_ok h
  split at h
  · next hsp => cases h; exact ⟨h1, hsp, rfl⟩
  · exact absurd h (by simp)

theorem pop_term {pu : ProcessingUnit} {r : Nat}
    {e : ProcessingUnit × ProcessTermination}
    (h : pu.pop r = Except.error e) : CleanErr pu e := by
  unfold pop at h
  refine seq_check_err h fun e1 h1 => ?_
  split at h1
  · exact absurd h1 (by simp)
  · cases h1; exact ⟨rfl, rfl⟩

theorem pop_ok {pu pu' : ProcessingUnit} {r : Nat}
    (h : pu.pop r = Except.ok pu') :
    r < pu.registers.length ∧ pu.stack_pointer < pu.memory.length - 1 ∧
      pu' = { pu with
        stack_pointer := pu.stack_pointer + 1
        registers := pu.registers.set r (pu.memory.getD (pu.stack_pointer + 1) 0) } := by
  unfold pop at h
  obtain ⟨h1, h⟩ := seq_check_ok h
  split at h
  · next hsp => cases h; exact ⟨h1, hsp, rfl⟩
  · exact absurd h (by simp)

theorem mov_term {pu : ProcessingUnit} {r1 r2 : Nat}
    {e : ProcessingUnit × ProcessTermination}
    (h : pu.mov r1 r2 = Except.error e) : CleanErr pu e := by
  unfold mov at h
  refine seq_check_err h fun e1 h1 => seq_check_err h1 fun e2 h2 => absurd h2 (by simp)

theorem mov_ok {pu pu' : ProcessingUnit} {r1 r2 : Nat}
    (h : pu.mov r1 r2 = Except.ok pu') :
    r1 < pu.registers.length ∧ r2 < pu.registers.length ∧
      pu' = { pu with registers := pu.registers.set r1 (pu.registers.getD r2 0) } := by
  unfold mov at h
  obtain ⟨h1, h⟩ := seq_check_ok h
  obtain ⟨h2, h⟩ := seq_check_ok h
  cases h
  exact ⟨h1, h2, rfl⟩

end ProcessingUnit

theorem liftOp_term {r : OpResult} {ip : Nat} {pu' : ProcessingUnit} {t : ProcessTermination}
    (h : liftOp r ip = BodyResult.term pu' t) : r = Except.error (pu', t) := by
  cases r with
  | ok a => simp [liftOp] at h
  | error e =>
    obtain ⟨p, q⟩ := e
    simp only [liftOp] at h
    cases h
    rfl

theorem liftOp_next {r : OpResult} {ip ip' : Nat} {pu' : ProcessingUnit}
    (h : liftOp r ip = BodyResult.next pu' ip') : r = Except.ok pu' ∧ ip' = ip := by
  cases r with
  | ok a => simp only [liftOp] at h; cases h; exact ⟨rfl, rfl⟩
  | error e => obtain ⟨p, q⟩ := e; simp [liftOp] at h

/-- Whichever way a loop-body iteration ends, the processor state it
leaves behind. -/
def stateOf : BodyResult → ProcessingUnit
  | BodyResult.next pu _ => pu
  | BodyResult.cont pu _ => pu
  | BodyResult.brk pu => pu
  | BodyResult.term pu _ => pu

/-- Every process-terminating outcome of the loop body leaves the state
untouched and carries exit code 1. -/
theorem executeBody_term {pu pu' : ProcessingUnit} {instr : Instruction} {ip : Nat}
    {t : ProcessTermination}
    (h : executeBody pu instr ip = BodyResult.term pu' t) : CleanErr pu (pu', t) := by
  obtain ⟨op, r1, r2, r3, a, imm⟩ := instr
  cases op <;> simp only [executeBody] at h
  case Add => exact ProcessingUnit.add_term (liftOp_term h)
  case Sub => exact ProcessingUnit.subtract_term (liftOp_term h)
  case Mul => exact ProcessingUnit.multiply_term (liftOp_term h)
  case Div => exact ProcessingUnit.divide_term (liftOp_term h)
  case Store => exact ProcessingUnit.store_term (liftOp_term h)
  case Load => exact ProcessingUnit.load_term (liftOp_term h)
  case LoadImmediate =>
    cases hc : pu.check_register_bounds r1 with
    | error e =>
      simp only [hc] at h; cases h
      obtain rfl := ProcessingUnit.check_register_bounds_error_inv hc
      exact ⟨rfl, rfl⟩
    | ok u => cases u; simp only [hc] at h; exact absurd h (by simp)
  case Push => exact ProcessingUnit.push_term (liftOp_term h)
  case Pop => exact ProcessingUnit.pop_term (liftOp_term h)
  case Jmp => simp at h
  case Jz =>
    cases hc : pu.check_register_bounds r1 with
    | error e =>
      simp only [hc] at h; cases h
      obtain rfl := ProcessingUnit.check_register_bounds_error_inv hc
      exact ⟨rfl, rfl⟩
    | ok u =>
      cases u; simp only [hc] at h
      split at h <;> exact absurd h (by simp)
  case Jnz =>
    cases hc : pu.check_register_bounds r1 with
    | error e =>
      simp only [hc] at h; cases h
      obtain rfl := ProcessingUnit.check_register_bounds_error_inv hc
      exact ⟨rfl, rfl⟩
    | ok u =>
      cases u; simp only [hc] at h
      split at h <;> exact absurd h (by simp)
  case Mov => exact ProcessingUnit.mov_term (liftOp_term h)
  case Je =>
    cases hc : pu.check_register_bounds r1 with
    | error e =>
      simp only [hc] at h; cases h
      obtain rfl := ProcessingUnit.check_register_bounds_error_inv hc
      exact ⟨rfl, rfl⟩
    | ok u =>
      cases u; simp only [hc] at h
      cases hc2 : pu.check_register_bounds r2 with
      | error e =>
        rw [hc2] at h; cases h
        obtain rfl := ProcessingUnit.check_register_bounds_error_inv hc2
        exact ⟨rfl, rfl⟩
      | ok u2 =>
        cases u2; simp only [hc2] at h
        split at h <;> exact absurd h (by simp)
  case Jne =>
    cases hc : pu.check_register_bounds r1 with
    | error e =>
      simp only [hc] at h; cases h
      obtain rfl := ProcessingUnit.check_register_bounds_error_inv hc
      exact ⟨rfl, rfl⟩
    | ok u =>
      cases u; simp only [hc] at h
      cases hc2 : pu.check_register_bounds r2 with
      | error e =>
        rw [hc2] at h; cases h
        obtain rfl := ProcessingUnit.check_register_bounds_error_inv hc2
        exact ⟨rfl, rfl⟩
      | ok u2 =>
        cases u2; simp only [hc2] at h
        split at h <;> exact absurd h (by simp)
  case And =>
    refine ProcessingUnit.seq_check_err (liftOp_term h) fun e1 h1 =>
      ProcessingUnit.seq_check_err h1 fun e2 h2 =>
        ProcessingUnit.seq_check_err h2 fun e3 h3 => absurd h3 (by simp)
  case Or =>
    refine ProcessingUnit.seq_check_err (liftOp_term h) fun e1 h1 =>
      ProcessingUnit.seq_check_err h1 fun e2 h2 =>
        ProcessingUnit.seq_check_err h2 fun e3 h3 => absurd h3 (by simp)
  case Xor =>
    refine ProcessingUnit.seq_check_err (liftOp_term h) fun e1 h1 =>
      ProcessingUnit.seq_check_err h1 fun e2 h2 =>
        ProcessingUnit.seq_check_err h2 fun e3 h3 => absurd h3 (by simp)
  case Not =>
    refine ProcessingUnit.seq_check_err (liftOp_term h) fun e1 h1 =>
      ProcessingUnit.seq_check_err h1 fun e2 h2 => absurd h2 (by simp)
  case Shl =>
    refine ProcessingUnit.seq_check_err (liftOp_term h) fun e1 h1 =>
      ProcessingUnit.seq_check_err h1 fun e2 h2 =>
        ProcessingUnit.seq_check_err h2 fun e3 h3 => absurd h3 (by simp)
  case Shr =>
    refine ProcessingUnit.seq_check_err (liftOp_term h) fun e1 h1 =>
      ProcessingUnit.seq_check_err h1 fun e2 h2 =>
        ProcessingUnit.seq_check_err h2 fun e3 h3 => absurd h3 (by simp)
  case Cmp =>
    refine ProcessingUnit.seq_check_err (liftOp_term h) fun e1 h1 =>
      ProcessingUnit.seq_check_err h1 fun e2 h2 =>
        ProcessingUnit.seq_check_err h2 fun e3 h3 => absurd h3 (by simp)
  case Test =>
    refine ProcessingUnit.seq_check_err (liftOp_term h) fun e1 h1 =>
      ProcessingUnit.seq_check_err h1 fun e2 h2 =>
        ProcessingUnit.seq_check_err h2 fun e3 h3 => absurd h3 (by simp)
  case B => simp at h
  case Bz =>
    cases hc : pu.check_register_bounds r1 with
    | error e =>
      simp only [hc] at h; cases h
      obtain rfl := ProcessingUnit.check_register_bounds_error_inv hc
      exact ⟨rfl, rfl⟩
    | ok u =>
      cases u; simp only [hc] at h
      split at h <;> exact absurd h (by simp)
  case Bnz =>
    cases hc : pu.check_register_bounds r1 with
    | error e =>
      simp only [hc] at h; cases h
      obtain rfl := ProcessingUnit.check_register_bounds_error_inv hc
      exact ⟨rfl, rfl⟩
    | ok u =>
      cases u; simp only [hc] at h
      split at h <;> exact absurd h (by simp)
  case Neg => exact ProcessingUnit.neg_term (liftOp_term h)
  case Abs => exact ProcessingUnit.absolute_term (liftOp_term h)
  case Mod => exact ProcessingUnit.mod_op_term (liftOp_term h)
  case Inc =>
    cases hc : pu.check_register_bounds r1 with
    | error e =>
      simp only [hc] at h; cases h
      obtain rfl := ProcessingUnit.check_register_bounds_error_inv hc
      exact ⟨rfl, rfl⟩
    | ok u => cases u; simp only [hc] at h; exact absurd h (by simp)
  case Dec =>
    cases hc : pu.check_register_bounds r1 with
    | error e =>
      simp only [hc] at h; cases h
      obtain rfl := ProcessingUnit.check_register_bounds_error_inv hc
      exact ⟨rfl, rfl⟩
    | ok u => cases u; simp only [hc] at h; exact absurd h (by simp)
  case Nop => simp at h
  case Halt => simp at h


/-- The structural invariant of a processor state: register and memory
sizes as chosen at construction, stack pointer within `[0, M-1]`. -/
def Invariant (N M : Nat) (pu : ProcessingUnit) : Prop :=
  pu.registers.length = N ∧ pu.memory.length = M ∧ pu.stack_pointer ≤ M - 1

theorem init_invariant (N M : Nat) : Invariant N M (ProcessingUnit.init N M) :=
  ⟨List.length_replicate _ _, List.length_replicate _ _, Nat.le_refl _⟩

theorem liftOp_state_inv {N M : Nat} {X : OpResult} {ip : Nat}
    (hok : ∀ pu2, X = Except.ok pu2 → Invariant N M pu2)
    (herr : ∀ e, X = Except.error e → Invariant N M e.1) :
    Invariant N M (stateOf (liftOp X ip)) := by
  cases hX : X with
  | ok pu2 => simpa [liftOp, stateOf] using hok pu2 hX
  | error e => simpa [liftOp, stateOf] using herr e hX

theorem bitop3_inv {N M : Nat} {pu : ProcessingUnit} {r1 r2 r3 : Nat} {v : Int} {ip : Nat}
    (hI : Invariant N M pu) :
    Invariant N M (stateOf (liftOp (do
      let _ ← pu.check_register_bounds r1
      let _ ← pu.check_register_bounds r2
      let _ ← pu.check_register_bounds r3
      Except.ok { pu with registers := (pu.registers.set r3 v) }) ip)) := by
  obtain ⟨hr, hm, hsp⟩ := hI
  refine liftOp_state_inv (fun pu2 hok => ?_) (fun e herr => ?_)
  · obtain ⟨h1, hok⟩ := ProcessingUnit.seq_check_ok hok
    obtain ⟨h2, hok⟩ := ProcessingUnit.seq_check_ok hok
    obtain ⟨h3, hok⟩ := ProcessingUnit.seq_check_ok hok
    cases hok
    exact ⟨by simp [hr], hm, hsp⟩
  · have hclean : CleanErr pu e := by
      refine ProcessingUnit.seq_check_err herr fun e1 h1 =>
        ProcessingUnit.seq_check_err h1 fun e2 h2 =>
          ProcessingUnit.seq_check_err h2 fun e3 h3 => absurd h3 (by simp)
    rw [hclean.1]
    exact ⟨hr, hm, hsp⟩

theorem bitop2_inv {N M : Nat} {pu : ProcessingUnit} {r1 r2 : Nat} {v : Int} {ip : Nat}
    (hI : Invariant N M pu) :
    Invariant N M (stateOf (liftOp (do
      let _ ← pu.check_register_bounds r1
      let _ ← pu.check_register_bounds r2
      Except.ok { pu with registers := (pu.registers.set r2 v) }) ip)) := by
  obtain ⟨hr, hm, hsp⟩ := hI
  refine liftOp_state_inv (fun pu2 hok => ?_) (fun e herr => ?_)
  · obtain ⟨h1, hok⟩ := ProcessingUnit.seq_check_ok hok
    obtain ⟨h2, hok⟩ := ProcessingUnit.seq_check_ok hok
    cases hok
    exact ⟨by simp [hr], hm, hsp⟩
  · have hclean : CleanErr pu e := by
      refine ProcessingUnit.seq_check_err herr fun e1 h1 =>
        ProcessingUnit.seq_check_err h1 fun e2 h2 => absurd h2 (by simp)
    rw [hclean.1]
    exact ⟨hr, hm, hsp⟩

/-- One loop-body iteration preserves the structural invariant, whatever
the outcome. -/
theorem executeBody_inv {N M : Nat} {pu : ProcessingUnit} {instr : Instruction} {ip : Nat}
    (hI : Invariant N M pu) : Invariant N M (stateOf (executeBody pu instr ip)) := by
  obtain ⟨op, r1, r2, r3, a, imm⟩ := instr
  have hr := hI.1
  have hm := hI.2.1
  have hsp := hI.2.2
  cases op <;> simp only [executeBody]
  case Add =>
    refine liftOp_state_inv (fun pu2 hok => ?_) (fun e herr => ?_)
    · obtain ⟨_, _, _, rfl⟩ := ProcessingUnit.add_ok hok
      exact ⟨by simp [hr], hm, hsp⟩
    · rw [(ProcessingUnit.add_term herr).1]; exact hI
  case Sub =>
    refine liftOp_state_inv (fun pu2 hok => ?_) (fun e herr => ?_)
    · obtain ⟨_, _, _, rfl⟩ := ProcessingUnit.subtract_ok hok
      exact ⟨by simp [hr], hm, hsp⟩
    · rw [(ProcessingUnit.subtract_term herr).1]; exact hI
  case Mul =>
    refine liftOp_state_inv (fun pu2 hok => ?_) (fun e herr => ?_)
    · obtain ⟨_, _, _, rfl⟩ := ProcessingUnit.multiply_ok hok
      exact ⟨by simp [hr], hm, hsp⟩
    · rw [(ProcessingUnit.multiply_term herr).1]; exact hI
  case Div =>
    refine liftOp_state_inv (fun pu2 hok => ?_) (fun e herr => ?_)
    · obtain ⟨_, _, _, rfl⟩ := ProcessingUnit.divide_ok hok
      exact ⟨by simp [hr], hm, hsp⟩
    · rw [(ProcessingUnit.divide_term herr).1]; exact hI
  case Store =>
    refine liftOp_state_inv (fun pu2 hok => ?_) (fun e herr => ?_)
    · obtain ⟨_, _, rfl⟩ := ProcessingUnit.store_ok hok
      exact ⟨hr, by simp [hm], hsp⟩
    · rw [(ProcessingUnit.store_term herr).1]; exact hI
  case Load =>
    refine liftOp_state_inv (fun pu2 hok => ?_) (fun e herr => ?_)
    · obtain ⟨_, _, rfl⟩ := ProcessingUnit.load_ok hok
      exact ⟨by simp [hr], hm, hsp⟩
    · rw [(ProcessingUnit.load_term herr).1]; exact hI
  case LoadImmediate =>
    cases hc : pu.check_register_bounds r1 with
    | error e =>
      simp only [hc, stateOf]
      rw [(ProcessingUnit.check_register_bounds_error_inv hc ▸ rfl : e.1 = pu)]
      exact hI
    | ok u => cases u; simp only [hc, stateOf]; exact ⟨by simp [hr], hm, hsp⟩
  case Push =>
    refine liftOp_state_inv (fun pu2 hok => ?_) (fun e herr => ?_)
    · obtain ⟨_, hsp0, rfl⟩ := ProcessingUnit.push_ok hok
      exact ⟨hr, by simp [hm], Nat.le_trans (Nat.sub_le _ _) hsp⟩
    · rw [(ProcessingUnit.push_term herr).1]; exact hI
  case Pop =>
    refine liftOp_state_inv (fun pu2 hok => ?_) (fun e herr => ?_)
    · obtain ⟨_, hsp2, rfl⟩ := ProcessingUnit.pop_ok hok
      have hlt : pu.stack_pointer < M - 1 := hm ▸ hsp2
      exact ⟨by simp [hr], hm, Nat.succ_le_of_lt hlt⟩
    · rw [(ProcessingUnit.pop_term herr).1]; exact hI
  case Jmp => exact hI
  case Jz =>
    cases hc : pu.check_register_bounds r1 with
    | error e =>
      simp only [hc, stateOf]
      rw [(ProcessingUnit.check_register_bounds_error_inv hc ▸ rfl : e.1 = pu)]
      exact hI
    | ok u => cases u; simp only [hc]; split <;> exact hI
  case Jnz =>
    cases hc : pu.check_register_bounds r1 with
    | error e =>
      simp only [hc, stateOf]
      rw [(ProcessingUnit.check_register_bounds_error_inv hc ▸ rfl : e.1 = pu)]
      exact hI
    | ok u => cases u; simp only [hc]; split <;> exact hI
  case Mov =>
    refine liftOp_state_inv (fun pu2 hok => ?_) (fun e herr => ?_)
    · obtain ⟨_, _, rfl⟩ := ProcessingUnit.mov_ok hok
      exact ⟨by simp [hr], hm, hsp⟩
    · rw [(ProcessingUnit.mov_term herr).1]; exact hI
  case Je =>
    cases hc : pu.check_register_bounds r1 with
    | error e =>
      simp only [hc, stateOf]
      rw [(ProcessingUnit.check_register_bounds_error_inv hc ▸ rfl : e.1 = pu)]
      exact hI
    | ok u =>
      cases u; simp only [hc]
      cases hc2 : pu.check_register_bounds r2 with
      | error e =>
        simp only [hc2, stateOf]
        rw [(ProcessingUnit.check_register_bounds_error_inv hc2 ▸ rfl : e.1 = pu)]
        exact hI
      | ok u2 => cases u2; simp only [hc2]; split <;> exact hI
  case Jne =>
    cases hc : pu.check_register_bounds r1 with
    | error e =>
      simp only [hc, stateOf]
      rw [(ProcessingUnit.check_register_bounds_error_inv hc ▸ rfl : e.1 = pu)]
      exact hI
    | ok u =>
      cases u; simp only [hc]
      cases hc2 : pu.check_register_bounds r2 with
      | error e =>
        simp only [hc2, stateOf]
        rw [(ProcessingUnit.check_register_bounds_error_inv hc2 ▸ rfl : e.1 = pu)]
        exact hI
      | ok u2 => cases u2; simp only [hc2]; split <;> exact hI
  case And => exact bitop3_inv hI
  case Or => exact bitop3_inv hI
  case Xor => exact bitop3_inv hI
  case Not => exact bitop2_inv hI
  case Shl => exact bitop3_inv hI
  case Shr => exact bitop3_inv hI
  case Cmp => exact bitop3_inv hI
  case Test => exact bitop3_inv hI
  case B => exact hI
  case Bz =>
    cases hc : pu.check_register_bounds r1 with
    | error e =>
      simp only [hc, stateOf]
      rw [(ProcessingUnit.check_register_bounds_error_inv hc ▸ rfl : e.1 = pu)]
      exact hI
    | ok u => cases u; simp only [hc]; split <;> exact hI
  case Bnz =>
    cases hc : pu.check_register_bounds r1 with
    | error e =>
      simp only [hc, stateOf]
      rw [(ProcessingUnit.check_register_bounds_error_inv hc ▸ rfl : e.1 = pu)]
      exact hI
    | ok u => cases u; simp only [hc]; split <;> exact hI
  case Neg =>
    refine liftOp_state_inv (fun pu2 hok => ?_) (fun e herr => ?_)
    · obtain ⟨_, _, rfl⟩ := ProcessingUnit.neg_ok hok
      exact ⟨by simp [hr], hm, hsp⟩
    · rw [(ProcessingUnit.neg_term herr).1]; exact hI
  case Abs =>
    refine liftOp_state_inv (fun pu2 hok => ?_) (fun e herr => ?_)
    · obtain ⟨_, _, rfl⟩ := ProcessingUnit.absolute_ok hok
      exact ⟨by simp [hr], hm, hsp⟩
    · rw [(ProcessingUnit.absolute_term herr).1]; exact hI
  case Mod =>
    refine liftOp_state_inv (fun pu2 hok => ?_) (fun e herr => ?_)
    · obtain ⟨_, _, _, rfl⟩ := ProcessingUnit.mod_op_ok hok
      exact ⟨by simp [hr], hm, hsp⟩
    · rw [(ProcessingUnit.mod_op_term herr).1]; exact hI
  case Inc =>
    cases hc : pu.check_register_bounds r1 with
    | error e =>
      simp only [hc, stateOf]
      rw [(ProcessingUnit.check_register_bounds_error_inv hc ▸ rfl : e.1 = pu)]
      exact hI
    | ok u => cases u; simp only [hc, stateOf]; exact ⟨by simp [hr], hm, hsp⟩
  case Dec =>
    cases hc : pu.check_register_bounds r1 with
    | error e =>
      simp only [hc, stateOf]
      rw [(ProcessingUnit.check_register_bounds_error_inv hc ▸ rfl : e.1 = pu)]
      exact hI
    | ok u => cases u; simp only [hc, stateOf]; exact ⟨by simp [hr], hm, hsp⟩
  case Nop => exact hI
  case Halt => exact hI


theorem executeBody_next_inv {N M : Nat} {pu pu' : ProcessingUnit} {instr : Instruction}
    {ip ip' : Nat} (hI : Invariant N M pu)
    (h : executeBody pu instr ip = BodyResult.next pu' ip') : Invariant N M pu' := by
  have h2 := @executeBody_inv N M _ instr ip hI
  rwa [h] at h2

theorem executeBody_cont_inv {N M : Nat} {pu pu' : ProcessingUnit} {instr : Instruction}
    {ip ip' : Nat} (hI : Invariant N M pu)
    (h : executeBody pu instr ip = BodyResult.cont pu' ip') : Invariant N M pu' := by
  have h2 := @executeBody_inv N M _ instr ip hI
  rwa [h] at h2

theorem executeBody_brk_inv {N M : Nat} {pu pu' : ProcessingUnit} {instr : Instruction}
    {ip : Nat} (hI : Invariant N M pu)
    (h : executeBody pu instr ip = BodyResult.brk pu') : Invariant N M pu' := by
  have h2 := @executeBody_inv N M _ instr ip hI
  rwa [h] at h2

/-- Every fault the execution loop can surface terminates the process
with exit code 1. -/
theorem executeLoop_error_code (fuel : Nat) :
    ∀ {pu : ProcessingUnit} {program : List Instruction} {mic ic ip : Nat}
      {pu2 : ProcessingUnit} {t : ProcessTermination},
      executeLoop fuel pu program mic ic ip = some (Except.error (pu2, t)) → t.code = 1 := by
  induction fuel with
  | zero => intro pu program mic ic ip pu2 t h; simp [executeLoop] at h
  | succ n ih =>
    intro pu program mic ic ip pu2 t h
    unfold executeLoop at h
    split at h
    · split at h
      · cases h; rfl
      · split at h
        · exact ih h
        · exact ih h
        · simp at h
        · next pu' t' heq =>
            cases h
            exact (executeBody_term heq).2
    · simp at h

/-- The execution loop preserves the structural invariant into any
normally returned final state. -/
theorem executeLoop_ok_inv {N M : Nat} (fuel : Nat) :
    ∀ {pu : ProcessingUnit} {program : List Instruction} {mic ic ip : Nat}
      {pu2 : ProcessingUnit},
      Invariant N M pu → executeLoop fuel pu program mic ic ip = some (Except.ok pu2) →
      Invariant N M pu2 := by
  induction fuel with
  | zero => intro pu program mic ic ip pu2 hI h; simp [executeLoop] at h
  | succ n ih =>
    intro pu program mic ic ip pu2 hI h
    unfold executeLoop at h
    split at h
    · split at h
      · simp at h
      · split at h
        · next pu' ip' heq => exact ih (executeBody_next_inv hI heq) h
        · next pu' ip' heq => exact ih (executeBody_cont_inv hI heq) h
        · next pu' heq => cases h; exact executeBody_brk_inv hI heq
        · simp at h
    · cases h; exact hI


/-- Claim C1 (refuted by the code, supporting the code-bug verdict): a
program consisting of a single unconditional jump to itself never
terminates, for any amount of fuel — in particular it never produces the
`instructionBudgetExceeded` termination, because the `continue` taken by
`Jmp` skips the `instruction_count += 1` at the bottom of the loop, so
the budget guard never fires. -/
theorem jmp_self_loops_forever :
    ∀ fuel : Nat, execute_program fuel (ProcessingUnit.init 8 128)
      ([⟨Opcode.Jmp, 0, 0, 0, 0, 0⟩] : List Instruction) 5 = none := by
  have key : ∀ fuel : Nat, executeLoop fuel (ProcessingUnit.init 8 128)
      ([⟨Opcode.Jmp, 0, 0, 0, 0, 0⟩] : List Instruction) 5 0 0 = none := by
    intro fuel
    induction fuel with
    | zero => rfl
    | succ n ih =>
      have hstep : executeLoop (n + 1) (ProcessingUnit.init 8 128)
          ([⟨Opcode.Jmp, 0, 0, 0, 0, 0⟩] : List Instruction) 5 0 0
          = executeLoop n (ProcessingUnit.init 8 128)
            ([⟨Opcode.Jmp, 0, 0, 0, 0, 0⟩] : List Instruction) 5 0 0 := rfl
      rw [hstep]
      exact ih
  exact key

/-- Claim C3, counterexample: a division by zero does not hand a fault
value back to the caller — the run ends in the modelled
`std::process::exit(1)`, the snapshot is never produced. -/
theorem divide_fault_terminates_modeled_process :
    run 2 (ProcessingUnit.init 1 1) ([⟨Opcode.Div, 0, 0, 0, 0, 0⟩] : List Instruction) 10
      = some (Except.error (ProcessingUnit.init 1 1,
          ⟨1, Fault.divisionByZero 0 0⟩)) := rfl

/-- Claim C3, amended: on any fatal fault the engine prints a diagnostic
carrying the fault kind and offending operand/value and terminates the
host process with exit code 1; it never returns fault information as an
ordinary value to its caller. -/
theorem faults_carry_exit_code_one (fuel : Nat) (pu pu2 : ProcessingUnit)
    (program : List Instruction) (mic : Nat) (t : ProcessTermination)
    (h : run fuel pu program mic = some (Except.error (pu2, t))) : t.code = 1 := by
  unfold run at h
  cases hx : execute_program fuel pu program mic with
  | none => rw [hx] at h; exact Option.noConfusion h
  | some r =>
    cases r with
    | error e =>
      simp only [hx] at h
      cases h
      exact executeLoop_error_code fuel hx
    | ok pu' => simp only [hx] at h; simp at h

theorem faults_carry_exit_code_one_witness :
    (⟨1, Fault.divisionByZero 0 0⟩ : ProcessTermination).code = 1 :=
  faults_carry_exit_code_one 2 (ProcessingUnit.init 1 1) (ProcessingUnit.init 1 1)
    ([⟨Opcode.Div, 0, 0, 0, 0, 0⟩] : List Instruction) 10
    ⟨1, Fault.divisionByZero 0 0⟩ rfl

/-- Claim C4: `divide` and `mod_op` with in-bounds register operands and
a zero divisor register end the run with the division-by-zero fault
(register and value recorded); the state carried at the fault is the
unmodified `pu`, so the destination register is untouched. -/
theorem div_mod_zero_divisor_fault (pu : ProcessingUnit) (r1 r2 r3 : Nat)
    (h1 : r1 < pu.registers.length) (h2 : r2 < pu.registers.length)
    (h3 : r3 < pu.registers.length) (hz : pu.registers.getD r2 0 = 0) :
    pu.divide r1 r2 r3 = Except.error (pu, ⟨1, Fault.divisionByZero r2 0⟩) ∧
    pu.mod_op r1 r2 r3 = Except.error (pu, ⟨1, Fault.divisionByZero r2 0⟩) := by
  have hnz : ¬pu.registers.getD r2 0 ≠ 0 := fun hne => hne hz
  constructor
  · unfold ProcessingUnit.divide
    simp only [ProcessingUnit.check_register_bounds_ok h1,
      ProcessingUnit.check_register_bounds_ok h2,
      ProcessingUnit.check_register_bounds_ok h3, bind, Except.bind]
    rw [if_neg hnz, hz]
  · unfold ProcessingUnit.mod_op
    simp only [ProcessingUnit.check_register_bounds_ok h1,
      ProcessingUnit.check_register_bounds_ok h2,
      ProcessingUnit.check_register_bounds_ok h3, bind, Except.bind]
    rw [if_neg hnz, hz]

theorem div_mod_zero_divisor_fault_witness :
    (ProcessingUnit.init 1 1).divide 0 0 0
        = Except.error (ProcessingUnit.init 1 1, ⟨1, Fault.divisionByZero 0 0⟩) ∧
    (ProcessingUnit.init 1 1).mod_op 0 0 0
        = Except.error (ProcessingUnit.init 1 1, ⟨1, Fault.divisionByZero 0 0⟩) :=
  div_mod_zero_divisor_fault (ProcessingUnit.init 1 1) 0 0 0
    (by decide) (by decide) (by decide) rfl

/-- Claim C8: `absolute` applied to a register holding the minimum
representable 32-bit signed integer succeeds (no trap) and writes that
same minimum value back, by two's-complement wrap-around. -/
theorem absolute_min_int_wraps (pu : ProcessingUnit) (r1 r2 : Nat)
    (h1 : r1 < pu.registers.length) (h2 : r2 < pu.registers.length)
    (hmin : pu.registers.getD r1 0 = -2147483648) :
    ∃ pu', pu.absolute r1 r2 = Except.ok pu' ∧
      pu'.registers.getD r2 0 = -2147483648 := by
  refine ⟨{ pu with registers := (pu.registers.set r2
    (wrap32 |pu.registers.getD r1 0|)) }, ?_, ?_⟩
  · unfold ProcessingUnit.absolute
    simp only [ProcessingUnit.check_register_bounds_ok h1,
      ProcessingUnit.check_register_bounds_ok h2, bind, Except.bind]
  · rw [hmin]
    have habs : wrap32 (2147483648 : Int) = -2147483648 := by decide
    simp [List.getD_eq_getElem?_getD, List.getElem?_set_self',
      List.getElem?_eq_getElem h2, Function.const, habs]

/-- Claim C8 witness at a concrete one-register machine. -/
theorem absolute_min_int_wraps_witness :
    ∃ pu', (⟨[-2147483648], [], 0⟩ : ProcessingUnit).absolute 0 0 = Except.ok pu' ∧
      pu'.registers.getD 0 0 = -2147483648 :=
  absolute_min_int_wraps ⟨[-2147483648], [], 0⟩ 0 0 (by decide) (by decide) rfl

/-- Claim C10, counterexample: under the wrapping `usize` semantics
this model adopts uniformly (the same release-profile convention as
`wrap32`), `initialize(8, 0)` does not panic — construction returns a
processor state, with the stack pointer wrapped to `2^64 - 1`. -/
theorem initialize_zero_memory_returns_state :
    ProcessingUnit.initWrap 8 0
      = ⟨List.replicate 8 0, [], 18446744073709551615⟩ := by
  unfold ProcessingUnit.initWrap
  norm_num

/-- Claim C10, amended: `initialize(num_registers, 0)` is still not
meaningfully total, but it does not panic under the wrapping `usize`
semantics of this model (the overflow-checked debug profile would): the
stack-pointer initialisation `memory_size - 1` wraps to `2^64 - 1`, so
construction returns a degenerate state whose stack pointer violates
the data-model invariant `stack_pointer ≤ M - 1`; only under the
precondition `memory_size ≥ 1` (within `usize` range) does the wrapped
subtraction agree with the plain one and the constructed state satisfy
the invariant. -/
theorem initialize_zero_memory_wraps (n m : Nat) :
    (ProcessingUnit.initWrap n 0).stack_pointer = 18446744073709551615 ∧
    ¬Invariant n 0 (ProcessingUnit.initWrap n 0) ∧
    (1 ≤ m → m ≤ 18446744073709551616 →
      ProcessingUnit.initWrap n m = ProcessingUnit.init n m) ∧
    (1 ≤ m → Invariant n m (ProcessingUnit.init n m)) := by
  refine ⟨by norm_num [ProcessingUnit.initWrap], fun hI => ?_, fun hm hle => ?_, fun _ => ?_⟩
  · have h := hI.2.2
    norm_num [ProcessingUnit.initWrap] at h
  · unfold ProcessingUnit.initWrap ProcessingUnit.init
    simp only [ProcessingUnit.mk.injEq, true_and]
    omega
  · exact init_invariant n m

theorem initialize_zero_memory_wraps_witness :
    (ProcessingUnit.initWrap 8 0).stack_pointer = 18446744073709551615 ∧
    ProcessingUnit.initWrap 8 128 = ProcessingUnit.init 8 128 ∧
    Invariant 8 128 (ProcessingUnit.init 8 128) :=
  ⟨(initialize_zero_memory_wraps 8 128).1,
   (initialize_zero_memory_wraps 8 128).2.2.1 (by norm_num) (by norm_num),
   (initialize_zero_memory_wraps 8 128).2.2.2 (by norm_num)⟩


/-- One unfolding of the loop at positive fuel. -/
theorem executeLoop_succ (fuel : Nat) (pu : ProcessingUnit) (program : List Instruction)
    (mic ic ip : Nat) :
    executeLoop (fuel + 1) pu program mic ic ip =
      if ip < program.length then
        if ic ≥ mic then
          some (Except.error (pu, ⟨1, Fault.instructionBudgetExceeded⟩))
        else
          match executeBody pu (program.getD ip defaultInstr) ip with
          | BodyResult.next pu' ip' => executeLoop fuel pu' program mic (ic + 1) (ip' + 1)
          | BodyResult.cont pu' ip' => executeLoop fuel pu' program mic ic ip'
          | BodyResult.brk pu' => some (Except.ok pu')
          | BodyResult.term pu' t => some (Except.error (pu', t))
      else some (Except.ok pu) := rfl

theorem executeBody_je_taken {pu : ProcessingUnit} {i : Instruction} {ip : Nat}
    (hop : i.opcode = Opcode.Je) (h1 : i.reg1 < pu.registers.length)
    (h2 : i.reg2 < pu.registers.length)
    (heq : pu.registers.getD i.reg1 0 = pu.registers.getD i.reg2 0) :
    executeBody pu i ip = BodyResult.next pu i.addr := by
  obtain ⟨op, r1, r2, r3, a, imm⟩ := i
  change op = Opcode.Je at hop
  subst hop
  simp only [executeBody, ProcessingUnit.check_register_bounds_ok h1,
    ProcessingUnit.check_register_bounds_ok h2]
  rw [if_pos heq]

theorem executeBody_jne_taken {pu : ProcessingUnit} {i : Instruction} {ip : Nat}
    (hop : i.opcode = Opcode.Jne) (h1 : i.reg1 < pu.registers.length)
    (h2 : i.reg2 < pu.registers.length)
    (hne : pu.registers.getD i.reg1 0 ≠ pu.registers.getD i.reg2 0) :
    executeBody pu i ip = BodyResult.next pu i.addr := by
  obtain ⟨op, r1, r2, r3, a, imm⟩ := i
  change op = Opcode.Jne at hop
  subst hop
  simp only [executeBody, ProcessingUnit.check_register_bounds_ok h1,
    ProcessingUnit.check_register_bounds_ok h2]
  rw [if_pos hne]

theorem executeBody_jmp {pu : ProcessingUnit} {i : Instruction} {ip : Nat}
    (hop : i.opcode = Opcode.Jmp) : executeBody pu i ip = BodyResult.cont pu i.addr := by
  obtain ⟨op, r1, r2, r3, a, imm⟩ := i
  change op = Opcode.Jmp at hop
  subst hop
  rfl

theorem executeBody_jz_taken {pu : ProcessingUnit} {i : Instruction} {ip : Nat}
    (hop : i.opcode = Opcode.Jz) (h1 : i.reg1 < pu.registers.length)
    (hz : pu.registers.getD i.reg1 0 = 0) :
    executeBody pu i ip = BodyResult.cont pu i.addr := by
  obtain ⟨op, r1, r2, r3, a, imm⟩ := i
  change op = Opcode.Jz at hop
  subst hop
  simp only [executeBody, ProcessingUnit.check_register_bounds_ok h1]
  rw [if_pos hz]

theorem executeBody_jnz_taken {pu : ProcessingUnit} {i : Instruction} {ip : Nat}
    (hop : i.opcode = Opcode.Jnz) (h1 : i.reg1 < pu.registers.length)
    (hz : pu.registers.getD i.reg1 0 ≠ 0) :
    executeBody pu i ip = BodyResult.cont pu i.addr := by
  obtain ⟨op, r1, r2, r3, a, imm⟩ := i
  change op = Opcode.Jnz at hop
  subst hop
  simp only [executeBody, ProcessingUnit.check_register_bounds_ok h1]
  rw [if_pos hz]

/-- Claim C2: a taken `Je` (resp. `Jne`) assigns `addr` to the
instruction pointer but does not skip the fall-through advance: the loop
still adds 1 to both counters, so execution resumes at `addr + 1` —
whereas `Jmp` (and taken `Jz`/`Jnz`) `continue` and re-enter the loop at
exactly `addr`. -/
theorem je_jne_taken_lands_one_past (fuel : Nat) (pu : ProcessingUnit)
    (program : List Instruction) (mic ic ip : Nat) (i : Instruction)
    (hip : ip < program.length) (hfetch : program.getD ip defaultInstr = i)
    (h1 : i.reg1 < pu.registers.length) (h2 : i.reg2 < pu.registers.length)
    (hcond : (i.opcode = Opcode.Je ∧
        pu.registers.getD i.reg1 0 = pu.registers.getD i.reg2 0) ∨
      (i.opcode = Opcode.Jne ∧
        pu.registers.getD i.reg1 0 ≠ pu.registers.getD i.reg2 0))
    (hic : ic < mic) :
    executeLoop (fuel + 1) pu program mic ic ip
      = executeLoop fuel pu program mic (ic + 1) (i.addr + 1) ∧
    (∀ (q : ProcessingUnit) (j : Instruction) (k : Nat), j.opcode = Opcode.Jmp →
      executeBody q j k = BodyResult.cont q j.addr) ∧
    (∀ (q : ProcessingUnit) (j : Instruction) (k : Nat), j.opcode = Opcode.Jz →
      j.reg1 < q.registers.length → q.registers.getD j.reg1 0 = 0 →
      executeBody q j k = BodyResult.cont q j.addr) ∧
    (∀ (q : ProcessingUnit) (j : Instruction) (k : Nat), j.opcode = Opcode.Jnz →
      j.reg1 < q.registers.length → q.registers.getD j.reg1 0 ≠ 0 →
      executeBody q j k = BodyResult.cont q j.addr) := by
  refine ⟨?_, fun q j k hj => executeBody_jmp hj,
    fun q j k hj hb hz => executeBody_jz_taken hj hb hz,
    fun q j k hj hb hz => executeBody_jnz_taken hj hb hz⟩
  have hbody : executeBody pu i ip = BodyResult.next pu i.addr := by
    rcases hcond with ⟨hop, heq⟩ | ⟨hop, hne⟩
    · exact executeBody_je_taken hop h1 h2 heq
    · exact executeBody_jne_taken hop h1 h2 hne
  rw [executeLoop_succ, if_pos hip, if_neg (Nat.not_le.mpr hic), hfetch, hbody]

/-- Claim C2 witness: a concrete taken `Je` at instruction pointer 0
resumes at `addr + 1 = 6`. -/
theorem je_jne_taken_lands_one_past_witness :
    executeLoop 1 (ProcessingUnit.init 1 1)
        ([⟨Opcode.Je, 0, 0, 0, 5, 0⟩] : List Instruction) 1 0 0
      = executeLoop 0 (ProcessingUnit.init 1 1)
        ([⟨Opcode.Je, 0, 0, 0, 5, 0⟩] : List Instruction) 1 1 6 :=
  (je_jne_taken_lands_one_past 0 (ProcessingUnit.init 1 1)
    ([⟨Opcode.Je, 0, 0, 0, 5, 0⟩] : List Instruction) 1 0 0
    ⟨Opcode.Je, 0, 0, 0, 5, 0⟩ (by decide) rfl (by decide) (by decide)
    (Or.inl ⟨rfl, rfl⟩) (by decide)).1

/-- Claim C5: every processor-state operation validates all of its
operands before writing any result: whenever an operation (or a
dispatched engine step) faults, the state carried out at the
termination is exactly the input state — no register, no memory cell
and not the stack pointer has been mutated by that operation. -/
theorem ops_fault_without_mutation (pu : ProcessingUnit) (r1 r2 r3 a : Nat)
    (e : ProcessingUnit × ProcessTermination) :
    (pu.add r1 r2 r3 = Except.error e → e.1 = pu) ∧
    (pu.subtract r1 r2 r3 = Except.error e → e.1 = pu) ∧
    (pu.multiply r1 r2 r3 = Except.error e → e.1 = pu) ∧
    (pu.divide r1 r2 r3 = Except.error e → e.1 = pu) ∧
    (pu.mod_op r1 r2 r3 = Except.error e → e.1 = pu) ∧
    (pu.neg r1 r2 = Except.error e → e.1 = pu) ∧
    (pu.absolute r1 r2 = Except.error e → e.1 = pu) ∧
    (pu.store r1 a = Except.error e → e.1 = pu) ∧
    (pu.load a r1 = Except.error e → e.1 = pu) ∧
    (pu.push r1 = Except.error e → e.1 = pu) ∧
    (pu.pop r1 = Except.error e → e.1 = pu) ∧
    (pu.mov r1 r2 = Except.error e → e.1 = pu) ∧
    (∀ (instr : Instruction) (ip : Nat) (pu' : ProcessingUnit) (t : ProcessTermination),
      executeBody pu instr ip = BodyResult.term pu' t → pu' = pu) :=
  ⟨fun h => (ProcessingUnit.add_term h).1,
   fun h => (ProcessingUnit.subtract_term h).1,
   fun h => (ProcessingUnit.multiply_term h).1,
   fun h => (ProcessingUnit.divide_term h).1,
   fun h => (ProcessingUnit.mod_op_term h).1,
   fun h => (ProcessingUnit.neg_term h).1,
   fun h => (ProcessingUnit.absolute_term h).1,
   fun h => (ProcessingUnit.store_term h).1,
   fun h => (ProcessingUnit.load_term h).1,
   fun h => (ProcessingUnit.push_term h).1,
   fun h => (ProcessingUnit.pop_term h).1,
   fun h => (ProcessingUnit.mov_term h).1,
   fun _ _ _ _ h => (executeBody_term h).1⟩

/-- Claim C5 witness: `store` with an out-of-bounds address faults and
carries back the untouched state. -/
theorem ops_fault_without_mutation_witness :
    (ProcessingUnit.init 1 2).store 0 9
        = Except.error (ProcessingUnit.init 1 2, ⟨1, Fault.memoryOutOfBounds 9⟩) ∧
    (ProcessingUnit.init 1 2, (⟨1, Fault.memoryOutOfBounds 9⟩ : ProcessTermination)).1
        = ProcessingUnit.init 1 2 :=
  ⟨rfl, (ops_fault_without_mutation (ProcessingUnit.init 1 2) 0 0 0 9
    (ProcessingUnit.init 1 2, ⟨1, Fault.memoryOutOfBounds 9⟩)).2.2.2.2.2.2.2.1 rfl⟩

theorem getD_set_self {l : List Int} {i : Nat} {v : Int} (h : i < l.length) :
    (l.set i v).getD i 0 = v := by
  simp [List.getD_eq_getElem?_getD, List.getElem?_set_self',
    List.getElem?_eq_getElem h, Function.const]

/-- Claim C6: `push r` then `pop r'` with no intervening stack
operations stores the pushed value `registers[r]` into `registers[r']`
and returns the stack pointer to its value before the push.  The bound
`stack_pointer < memory.length` is the data-model invariant maintained
by every run (see `Invariant`). -/
theorem push_ok_pos {pu : ProcessingUnit} {r : Nat} (hr : r < pu.registers.length)
    (hsp : 0 < pu.stack_pointer) :
    pu.push r = Except.ok { pu with
      memory := pu.memory.set pu.stack_pointer (pu.registers.getD r 0)
      stack_pointer := pu.stack_pointer - 1 } := by
  unfold ProcessingUnit.push
  simp only [ProcessingUnit.check_register_bounds_ok hr, bind, Except.bind]
  rw [if_pos hsp]

theorem pop_ok_pos {pu : ProcessingUnit} {r : Nat} (hr : r < pu.registers.length)
    (hsp : pu.stack_pointer < pu.memory.length - 1) :
    pu.pop r = Except.ok { pu with
      stack_pointer := pu.stack_pointer + 1
      registers := pu.registers.set r (pu.memory.getD (pu.stack_pointer + 1) 0) } := by
  unfold ProcessingUnit.pop
  simp only [ProcessingUnit.check_register_bounds_ok hr, bind, Except.bind]
  rw [if_pos hsp]

theorem push_pop_round_trip (pu : ProcessingUnit) (r r' : Nat)
    (hr : r < pu.registers.length) (hr' : r' < pu.registers.length)
    (hsp : 0 < pu.stack_pointer) (hspM : pu.stack_pointer < pu.memory.length) :
    ∃ pu1 pu2, pu.push r = Except.ok pu1 ∧ pu1.pop r' = Except.ok pu2 ∧
      pu2.registers.getD r' 0 = pu.registers.getD r 0 ∧
      pu2.stack_pointer = pu.stack_pointer := by
  refine ⟨_, _, push_ok_pos hr hsp, pop_ok_pos hr' ?_, ?_, ?_⟩
  · show pu.stack_pointer - 1
        < (pu.memory.set pu.stack_pointer (pu.registers.getD r 0)).length - 1
    rw [List.length_set]
    omega
  · show (pu.registers.set r'
        ((pu.memory.set pu.stack_pointer (pu.registers.getD r 0)).getD
          (pu.stack_pointer - 1 + 1) 0)).getD r' 0
      = pu.registers.getD r 0
    have hs : pu.stack_pointer - 1 + 1 = pu.stack_pointer := by omega
    rw [getD_set_self hr', hs, getD_set_self hspM]
  · show pu.stack_pointer - 1 + 1 = pu.stack_pointer
    omega

/-- Claim C6 witness: push register 0 of a two-cell machine, then pop
into register 1. -/
theorem push_pop_round_trip_witness :
    ∃ pu1 pu2, (⟨[7, 0], [0, 0], 1⟩ : ProcessingUnit).push 0 = Except.ok pu1 ∧
      pu1.pop 1 = Except.ok pu2 ∧
      pu2.registers.getD 1 0 = (⟨[7, 0], [0, 0], 1⟩ : ProcessingUnit).registers.getD 0 0 ∧
      pu2.stack_pointer = (⟨[7, 0], [0, 0], 1⟩ : ProcessingUnit).stack_pointer :=
  push_pop_round_trip ⟨[7, 0], [0, 0], 1⟩ 0 1
    (by decide) (by decide) (by decide) (by decide)

/-- Claim C9: starting from `init N M` with `M ≥ 1`, the structural
invariants — register count `N`, memory size `M`, stack pointer in
`[0, M-1]` (the lower bound holds by the index type) — are established
at construction, preserved by every dispatched operation of the loop
body whatever its outcome, and hence hold of the final state of any
normally completed run. -/
theorem state_invariants_preserved (N M : Nat) (_hM : 1 ≤ M) :
    Invariant N M (ProcessingUnit.init N M) ∧
    (∀ (pu : ProcessingUnit) (instr : Instruction) (ip : Nat), Invariant N M pu →
      Invariant N M (stateOf (executeBody pu instr ip))) ∧
    (∀ (fuel : Nat) (pu pu2 : ProcessingUnit) (program : List Instruction)
      (mic ic ip : Nat), Invariant N M pu →
      executeLoop fuel pu program mic ic ip = some (Except.ok pu2) →
      Invariant N M pu2) :=
  ⟨init_invariant N M,
   fun _ _ _ hI => executeBody_inv hI,
   fun fuel _ _ _ _ _ _ hI h => executeLoop_ok_inv fuel hI h⟩

/-- Claim C9 witness at `N = 2`, `M = 3`. -/
theorem state_invariants_preserved_witness :
    Invariant 2 3 (ProcessingUnit.init 2 3) ∧
    Invariant 2 3 (stateOf (executeBody (ProcessingUnit.init 2 3)
      ⟨Opcode.Inc, 0, 0, 0, 0, 0⟩ 0)) :=
  ⟨(state_invariants_preserved 2 3 (by decide)).1,
   (state_invariants_preserved 2 3 (by decide)).2.1 (ProcessingUnit.init 2 3)
     ⟨Opcode.Inc, 0, 0, 0, 0, 0⟩ 0 (state_invariants_preserved 2 3 (by decide)).1⟩

/-- Claim C7: a run that ends without a fault returns the copy of the
final register sequence and the stack contents
`memory[stack_pointer + 1 ..]`, which is empty when the stack pointer
sits at `memory.length - 1`. -/
theorem run_snapshot_contents (fuel : Nat) (pu : ProcessingUnit)
    (program : List Instruction) (mic : Nat) (st : ProcessingUnitState)
    (h : run fuel pu program mic = some (Except.ok st)) :
    ∃ pu', execute_program fuel pu program mic = some (Except.ok pu') ∧
      st.registers = pu'.registers ∧
      st.stack = pu'.memory.drop (pu'.stack_pointer + 1) ∧
      (pu'.stack_pointer = pu'.memory.length - 1 → st.stack = []) := by
  unfold run at h
  cases hx : execute_program fuel pu program mic with
  | none => rw [hx] at h; exact Option.noConfusion h
  | some r =>
    cases r with
    | error e => simp only [hx] at h; simp at h
    | ok pu' =>
      simp only [hx] at h
      cases h
      refine ⟨pu', rfl, rfl, rfl, fun hsp => ?_⟩
      show List.drop (pu'.stack_pointer + 1) pu'.memory = []
      apply List.drop_eq_nil_of_le
      omega

/-- Claim C7 witness: a one-instruction `Halt` program on a one-register,
two-cell machine returns registers `[0]` and an empty stack. -/
theorem run_snapshot_contents_witness :
    run 1 (ProcessingUnit.init 1 2) ([⟨Opcode.Halt, 0, 0, 0, 0, 0⟩] : List Instruction) 1
        = some (Except.ok ⟨[0], []⟩) ∧
    ∃ pu', execute_program 1 (ProcessingUnit.init 1 2)
        ([⟨Opcode.Halt, 0, 0, 0, 0, 0⟩] : List Instruction) 1 = some (Except.ok pu') ∧
      (⟨[0], []⟩ : ProcessingUnitState).registers = pu'.registers ∧
      (⟨[0], []⟩ : ProcessingUnitState).stack
          = pu'.memory.drop (pu'.stack_pointer + 1) ∧
      (pu'.stack_pointer = pu'.memory.length - 1 →
        (⟨[0], []⟩ : ProcessingUnitState).stack = []) :=
  ⟨rfl, run_snapshot_contents 1 (ProcessingUnit.init 1 2)
    ([⟨Opcode.Halt, 0, 0, 0, 0, 0⟩] : List Instruction) 1 ⟨[0], []⟩ rfl⟩

end Mdpu
